import Mathlib

set_option maxHeartbeats 1000000
set_option linter.unnecessarySeqFocus false

/-!
Shallow embedding of the URL-Shortener service (src/url.py).

The mutable database (SQLAlchemy table of ShortURL rows, SQLite) is modelled
as an explicit state: a list of records in insertion order plus the next
primary-key value.  Timestamps are natural numbers counting seconds
(a timedelta of d days is d * 86400 seconds).  The cryptographically secure
random source behind secrets.choice is an oracle: a function from draw
index to a natural number, reduced modulo the alphabet size.  The unbounded
regeneration loop of create_short_url_entry is given explicit fuel and
returns none when the fuel runs out; every other outcome of the Python code
is represented exactly.  The external library predicate validators.url is an
abstract boolean parameter; validators.slug is modelled concretely from its
published pattern (one or more characters among letters, digits, hyphen,
underscore).
-/

/-- The alphabet of generate_short_code: string.ascii_letters followed by
string.digits (26 lowercase, 26 uppercase, 10 digits). -/
def chars : List Char :=
  ['a','b','c','d','e','f','g','h','i','j','k','l','m',
   'n','o','p','q','r','s','t','u','v','w','x','y','z',
   'A','B','C','D','E','F','G','H','I','J','K','L','M',
   'N','O','P','Q','R','S','T','U','V','W','X','Y','Z',
   '0','1','2','3','4','5','6','7','8','9']

/-- generate_short_code(length=6): each character is an independent draw of
secrets.choice from the 62-character alphabet; the oracle rand gives the
draw for each position. -/
def generate_short_code (rand : Nat → Nat) (length : Nat := 6) : List Char :=
  (List.range length).map (fun i => chars.getD (rand i % chars.length) 'a')

/-- One row of the ShortURL table (class ShortURL in src/url.py). -/
structure ShortURL where
  id : Nat
  original_url : List Char
  short_code : List Char
  created_at : Nat
  expires_at : Option Nat
  visit_count : Nat
deriving DecidableEq, Repr

/-- The database state: the rows in insertion order and the next
auto-increment primary key. -/
structure Store where
  records : List ShortURL
  nextId : Nat
deriving DecidableEq, Repr

/-- ShortURL.query.filter_by(short_code=code).first(): the first row whose
short_code equals the argument. -/
def find_by_code (recs : List ShortURL) (code : List Char) : Option ShortURL :=
  recs.find? (fun r => r.short_code == code)

/-- Error kinds raised as ValueError by the submission path:
InvalidURL is the message Invalid URL format, CodeInUse is
Custom code already in use, InvalidCode is Invalid custom code. -/
inductive SubmitError where
  | InvalidURL
  | CodeInUse
  | InvalidCode
deriving DecidableEq, Repr

/-- Outcome of the GET route redirect_url: 404 (first_or_404 misses),
410 (expired), or a 302 redirect carrying the original URL. -/
inductive ResolveResult where
  | NotFound
  | Expired
  | Redirect (original_url : List Char)
deriving DecidableEq, Repr

/-- A character accepted by the slug pattern of validators.slug:
letters, digits, hyphen, underscore. -/
def slugChar (c : Char) : Bool :=
  c.isAlpha || c.isDigit || c == '-' || c == '_'

/-- validators.slug: one or more slug characters. -/
def slug (s : List Char) : Bool :=
  !s.isEmpty && s.all slugChar

/-- Python truthiness of the custom_code argument: None and the empty
string are falsy. -/
def truthy (o : Option (List Char)) : Bool :=
  match o with
  | none => false
  | some s => !s.isEmpty

/-- The while-loop of create_short_url_entry: generate a code, regenerate
while a row with that code exists.  Attempt i uses the oracle rands i;
fuel bounds the number of attempts (none = fuel exhausted, which the
unbounded Python loop never reports). -/
def code_retry_loop (recs : List ShortURL) (rands : Nat → Nat → Nat) :
    Nat → Nat → Option (List Char)
  | 0, _ => none
  | fuel + 1, i =>
    let c := generate_short_code (rands i)
    match find_by_code recs c with
    | some _ => code_retry_loop recs rands fuel (i + 1)
    | none => some c

/-- create_short_url_entry(original_url, custom_code): resolve a short code
(custom after in-use and slug checks, else generated fresh), then insert a
new row with expires_at = now + days * 86400 and commit.  Errors are raised
before any insert, so the state component of an error outcome is the input
state.  days is app.config DEFAULT_EXPIRATION_DAYS (30). -/
def create_short_url_entry (s : Store) (now days fuel : Nat)
    (rands : Nat → Nat → Nat) (original_url : List Char)
    (custom_code : Option (List Char)) :
    Option (Except SubmitError (List Char) × Store) :=
  let resolved : Option (Except SubmitError (List Char)) :=
    if truthy custom_code then
      let c := custom_code.getD []
      if (find_by_code s.records c).isSome then
        some (Except.error SubmitError.CodeInUse)
      else if !slug c then
        some (Except.error SubmitError.InvalidCode)
      else
        some (Except.ok c)
    else
      (code_retry_loop s.records rands fuel 0).map Except.ok
  match resolved with
  | none => none
  | some (Except.error e) => some (Except.error e, s)
  | some (Except.ok code) =>
    let new_url : ShortURL :=
      { id := s.nextId
        original_url := original_url
        short_code := code
        created_at := now
        expires_at := some (now + days * 86400)
        visit_count := 0 }
    some (Except.ok code, { records := s.records ++ [new_url], nextId := s.nextId + 1 })

/-- validate_url: raises on inputs rejected by the external validators.url
predicate, modelled by the boolean parameter urlValid. -/
def validate_url (urlValid : List Char → Bool) (url : List Char) :
    Except SubmitError (List Char) :=
  if urlValid url then Except.ok url else Except.error SubmitError.InvalidURL

/-- The POST /api/shorten handler: validate the URL, then create the entry;
a ValueError becomes a 400 response and the state is untouched. -/
def api_create_short_url (urlValid : List Char → Bool) (s : Store)
    (now days fuel : Nat) (rands : Nat → Nat → Nat) (url : List Char)
    (custom_code : Option (List Char)) :
    Option (Except SubmitError (List Char) × Store) :=
  match validate_url urlValid url with
  | Except.error e => some (Except.error e, s)
  | Except.ok u => create_short_url_entry s now days fuel rands u custom_code

/-- The test url.expires_at and url.expires_at < datetime.utcnow():
None is falsy, otherwise strict comparison. -/
def expired_at (now : Nat) (r : ShortURL) : Bool :=
  match r.expires_at with
  | some e => decide (e < now)
  | none => false

/-- The GET route redirect_url: first_or_404 lookup; if expired, delete the
row and answer 410; otherwise increment visit_count and redirect. -/
def redirect_url (s : Store) (now : Nat) (short_code : List Char) :
    ResolveResult × Store :=
  match find_by_code s.records short_code with
  | none => (ResolveResult.NotFound, s)
  | some url =>
    if expired_at now url then
      (ResolveResult.Expired,
       { s with records := s.records.filter (fun r => r.id != url.id) })
    else
      (ResolveResult.Redirect url.original_url,
       { s with records := s.records.map (fun r =>
           if r.id == url.id then { r with visit_count := r.visit_count + 1 } else r) })

/-- The cleanup CLI command: delete every row with expires_at < now
(rows with expires_at NULL are kept) and report how many were removed. -/
def cleanup_expired_urls (s : Store) (now : Nat) : Nat × Store :=
  ((s.records.filter (expired_at now)).length,
   { s with records := s.records.filter (fun r => !expired_at now r) })

/-- A record strictly before its expiry instant. -/
def future_at (now : Nat) (r : ShortURL) : Bool :=
  match r.expires_at with
  | some e => decide (now < e)
  | none => false

instance {α β : Type} [DecidableEq α] [DecidableEq β] : DecidableEq (Except α β) :=
  fun a b =>
    match a, b with
    | Except.ok x, Except.ok y =>
      if h : x = y then isTrue (by rw [h])
      else isFalse (by intro hc; cases hc; exact h rfl)
    | Except.ok _, Except.error _ => isFalse (by intro hc; cases hc)
    | Except.error _, Except.ok _ => isFalse (by intro hc; cases hc)
    | Except.error x, Except.error y =>
      if h : x = y then isTrue (by rw [h])
      else isFalse (by intro hc; cases hc; exact h rfl)

/-- The list of short codes currently stored. -/
def codes (s : Store) : List (List Char) :=
  s.records.map ShortURL.short_code

/-- The uniqueness invariant: no two stored rows share a short code. -/
def codes_unique (s : Store) : Prop :=
  (codes s).Nodup

theorem find_by_code_append (l1 l2 : List ShortURL) (c : List Char) :
    find_by_code (l1 ++ l2) c =
      match find_by_code l1 c with
      | some r => some r
      | none => find_by_code l2 c := by
  induction l1 with
  | nil => simp [find_by_code]
  | cons a l ih =>
    simp only [find_by_code, List.cons_append, List.find?]
    cases h : a.short_code == c <;> simp [find_by_code] at ih ⊢ <;> exact ih

theorem find_by_code_map (l : List ShortURL) (f : ShortURL → ShortURL)
    (c : List Char) (hf : ∀ x, (f x).short_code = x.short_code) :
    find_by_code (l.map f) c = (find_by_code l c).map f := by
  induction l with
  | nil => simp [find_by_code]
  | cons a l ih =>
    simp only [find_by_code, List.map_cons, List.find?, hf a]
    cases h : a.short_code == c <;> simp [find_by_code] at ih ⊢ <;> exact ih

theorem find_by_code_eq_none (l : List ShortURL) (c : List Char) :
    find_by_code l c = none ↔ ∀ r ∈ l, r.short_code ≠ c := by
  simp [find_by_code, List.find?_eq_none]

theorem find_by_code_mem (l : List ShortURL) (c : List Char) (r : ShortURL)
    (h : find_by_code l c = some r) : r ∈ l ∧ r.short_code = c := by
  refine ⟨List.mem_of_find?_eq_some h, ?_⟩
  have := List.find?_some h
  simpa using this

theorem code_retry_loop_spec (recs : List ShortURL) (rands : Nat → Nat → Nat)
    (fuel i : Nat) (c : List Char)
    (h : code_retry_loop recs rands fuel i = some c) :
    find_by_code recs c = none ∧ ∃ j, c = generate_short_code (rands j) := by
  induction fuel generalizing i with
  | zero => simp [code_retry_loop] at h
  | succ fuel ih =>
    simp only [code_retry_loop] at h
    cases hf : find_by_code recs (generate_short_code (rands i)) with
    | some r => rw [hf] at h; exact ih (i + 1) h
    | none =>
      rw [hf] at h
      simp only [Option.some.injEq] at h
      exact ⟨h ▸ hf, i, h.symm⟩

theorem generate_short_code_length (rand : Nat → Nat) (n : Nat) :
    (generate_short_code rand n).length = n := by
  simp [generate_short_code]

theorem generate_short_code_mem (rand : Nat → Nat) (n : Nat) (ch : Char)
    (h : ch ∈ generate_short_code rand n) : ch ∈ chars := by
  simp only [generate_short_code, List.mem_map] at h
  obtain ⟨i, _, hi⟩ := h
  have hlt : rand i % chars.length < 62 := by
    have : chars.length = 62 := by decide
    rw [this]
    exact Nat.mod_lt _ (by decide)
  have hall : ∀ k, k < 62 → chars.getD k 'a' ∈ chars := by decide
  exact hi ▸ hall _ hlt

/-- Helper: resolving a live code answers a redirect and bumps exactly the
rows sharing the found record's primary key. -/
theorem redirect_url_active (s : Store) (now : Nat) (c : List Char) (r : ShortURL)
    (hf : find_by_code s.records c = some r) (he : expired_at now r = false) :
    redirect_url s now c =
      (ResolveResult.Redirect r.original_url,
       { s with records := s.records.map (fun x =>
           if x.id == r.id then { x with visit_count := x.visit_count + 1 } else x) }) := by
  simp [redirect_url, hf, he]

/-- Helper: the bump map preserves codes, so lookup after a bump returns the
bumped record. -/
theorem find_after_bump (recs : List ShortURL) (c : List Char) (r : ShortURL)
    (hf : find_by_code recs c = some r) :
    find_by_code (recs.map (fun x =>
        if x.id == r.id then { x with visit_count := x.visit_count + 1 } else x)) c =
      some { r with visit_count := r.visit_count + 1 } := by
  rw [find_by_code_map]
  · rw [hf]
    simp
  · intro x
    cases h : x.id == r.id <;> simp [h]

/-- Helper: any successful submission inserts exactly one fresh row at the
end of the table, with the fields create_short_url_entry sets. -/
theorem create_success_shape (s : Store) (now days fuel : Nat)
    (rands : Nat → Nat → Nat) (u : List Char) (custom : Option (List Char))
    (c : List Char) (s1 : Store)
    (h : create_short_url_entry s now days fuel rands u custom = some (Except.ok c, s1)) :
    find_by_code s.records c = none ∧
    s1 = { records := s.records ++
             [{ id := s.nextId, original_url := u, short_code := c,
                created_at := now, expires_at := some (now + days * 86400),
                visit_count := 0 }],
           nextId := s.nextId + 1 } := by
  cases hb : truthy custom with
  | true =>
    cases hfs : find_by_code s.records (custom.getD []) with
    | some r => simp [create_short_url_entry, hb, hfs] at h
    | none =>
      cases hsl : slug (custom.getD []) with
      | false => simp [create_short_url_entry, hb, hfs, hsl] at h
      | true =>
        simp only [create_short_url_entry, hb, hfs, hsl, if_true, Bool.not_true,
          Option.isSome_none, Bool.false_eq_true, if_false, Option.some.injEq,
          Prod.mk.injEq, Except.ok.injEq] at h
        obtain ⟨hc, hs⟩ := h
        subst hc
        exact ⟨hfs, hs.symm⟩
  | false =>
    cases hl : code_retry_loop s.records rands fuel 0 with
    | none => simp [create_short_url_entry, hb, hl] at h
    | some c0 =>
      simp only [create_short_url_entry, hb, hl, Bool.false_eq_true, if_false,
        Option.map_some', Option.some.injEq, Prod.mk.injEq, Except.ok.injEq] at h
      obtain ⟨hc, hs⟩ := h
      subst hc
      obtain ⟨hn, _⟩ := code_retry_loop_spec _ _ _ _ _ hl
      exact ⟨hn, hs.symm⟩

/-- Helper: a successful generated-code submission got its code from the
retry loop, hence from generate_short_code. -/
theorem create_generated_code (s : Store) (now days fuel : Nat)
    (rands : Nat → Nat → Nat) (u c : List Char) (s1 : Store)
    (h : create_short_url_entry s now days fuel rands u none = some (Except.ok c, s1)) :
    ∃ j, c = generate_short_code (rands j) := by
  cases hl : code_retry_loop s.records rands fuel 0 with
  | none => simp [create_short_url_entry, truthy, hl] at h
  | some c0 =>
    simp only [create_short_url_entry, truthy, hl, Bool.false_eq_true, if_false,
      Option.map_some', Option.some.injEq, Prod.mk.injEq, Except.ok.injEq] at h
    obtain ⟨hc, _⟩ := h
    subst hc
    exact (code_retry_loop_spec _ _ _ _ _ hl).2

/-- Helper: a record stamped by a submission at time now is not yet expired
at time now. -/
theorem new_record_not_expired (now days : Nat) (r : ShortURL)
    (he : r.expires_at = some (now + days * 86400)) :
    expired_at now r = false := by
  simp only [expired_at, he, decide_eq_false_iff_not]
  omega

/-- C1: submitting a syntactically valid URL U with no custom code yields a
code C whose record starts at visit_count 0; resolving C immediately
redirects to U and raises visit_count to 1; resolving C again redirects to
U and raises visit_count to 2. -/
theorem C1_round_trip (urlValid : List Char → Bool) (s : Store)
    (now days fuel : Nat) (rands : Nat → Nat → Nat) (u c : List Char) (s1 : Store)
    (hv : urlValid u = true)
    (h : api_create_short_url urlValid s now days fuel rands u none =
      some (Except.ok c, s1)) :
    (find_by_code s1.records c).map ShortURL.visit_count = some 0 ∧
    (redirect_url s1 now c).1 = ResolveResult.Redirect u ∧
    (find_by_code (redirect_url s1 now c).2.records c).map ShortURL.visit_count =
      some 1 ∧
    (redirect_url (redirect_url s1 now c).2 now c).1 = ResolveResult.Redirect u ∧
    (find_by_code (redirect_url (redirect_url s1 now c).2 now c).2.records c).map
      ShortURL.visit_count = some 2 := by
  simp only [api_create_short_url, validate_url, hv, if_true] at h
  obtain ⟨hfresh, hs1⟩ := create_success_shape _ _ _ _ _ _ _ _ _ h
  set n : ShortURL :=
    { id := s.nextId, original_url := u, short_code := c, created_at := now,
      expires_at := some (now + days * 86400), visit_count := 0 } with hn
  have hfind1 : find_by_code s1.records c = some n := by
    rw [hs1]
    rw [show ({ records := s.records ++ [n], nextId := s.nextId + 1 } : Store).records =
      s.records ++ [n] from rfl]
    rw [find_by_code_append, hfresh]
    simp [find_by_code, List.find?]
  have hexp : expired_at now n = false := new_record_not_expired now days n rfl
  have hred1 := redirect_url_active s1 now c n hfind1 hexp
  refine ⟨by rw [hfind1]; rfl, by rw [hred1], ?_, ?_, ?_⟩
  · rw [hred1]
    have := find_after_bump s1.records c n hfind1
    simp only [this]
    rfl
  · have hfind2 : find_by_code (redirect_url s1 now c).2.records c =
        some { n with visit_count := 1 } := by
      rw [hred1]
      exact find_after_bump s1.records c n hfind1
    have hexp2 : expired_at now { n with visit_count := 1 } = false :=
      new_record_not_expired now days _ rfl
    rw [redirect_url_active _ now c _ hfind2 hexp2]
  · have hfind2 : find_by_code (redirect_url s1 now c).2.records c =
        some { n with visit_count := 1 } := by
      rw [hred1]
      exact find_after_bump s1.records c n hfind1
    have hexp2 : expired_at now { n with visit_count := 1 } = false :=
      new_record_not_expired now days _ rfl
    rw [redirect_url_active _ now c _ hfind2 hexp2]
    have := find_after_bump (redirect_url s1 now c).2.records c _ hfind2
    simp only [this]
    rfl

/-- Concrete URL used by the C1 witness. -/
def w1url : List Char := String.toList "https://example.com/page"

/-- Concrete generated code of the C1 witness (all draws are 0). -/
def w1code : List Char := String.toList "aaaaaa"

/-- Store after the C1 witness submission on the empty store. -/
def w1s1 : Store :=
  { records := [{ id := 1, original_url := w1url, short_code := w1code,
                  created_at := 0, expires_at := some 2592000, visit_count := 0 }],
    nextId := 2 }

/-- Witness for C1 at a concrete submission on the empty store. -/
theorem C1_round_trip_witness :
    (find_by_code w1s1.records w1code).map ShortURL.visit_count = some 0 ∧
    (redirect_url w1s1 0 w1code).1 = ResolveResult.Redirect w1url ∧
    (find_by_code (redirect_url w1s1 0 w1code).2.records w1code).map
      ShortURL.visit_count = some 1 ∧
    (redirect_url (redirect_url w1s1 0 w1code).2 0 w1code).1 =
      ResolveResult.Redirect w1url ∧
    (find_by_code (redirect_url (redirect_url w1s1 0 w1code).2 0 w1code).2.records
      w1code).map ShortURL.visit_count = some 2 :=
  C1_round_trip (fun _ => true) { records := [], nextId := 1 } 0 30 1
    (fun _ _ => 0) w1url w1code w1s1 rfl (by decide)

/-- Helper: an error outcome of create_short_url_entry leaves the state as
it was (every raise happens before the insert). -/
theorem create_error_state (s : Store) (now days fuel : Nat)
    (rands : Nat → Nat → Nat) (u : List Char) (custom : Option (List Char))
    (e : SubmitError) (s1 : Store)
    (h : create_short_url_entry s now days fuel rands u custom =
      some (Except.error e, s1)) :
    s1 = s := by
  simp only [create_short_url_entry] at h
  split at h
  · exact absurd h (by simp)
  · exact ((Prod.mk.injEq _ _ _ _).mp (Option.some.inj h)).2.symm
  · exact absurd h (by simp)

/-- Helper: a bump map does not change the stored codes. -/
theorem codes_bump (l : List ShortURL) (f : ShortURL → ShortURL)
    (hf : ∀ x, (f x).short_code = x.short_code) :
    (l.map f).map ShortURL.short_code = l.map ShortURL.short_code := by
  rw [List.map_map]
  exact List.map_congr_left (fun a _ => hf a)

/-- C2: short-code uniqueness of the stored rows is preserved by every
operation: submission (custom or generated code, successful or not),
resolution, and the expiry sweep. -/
theorem C2_uniqueness_invariant (s : Store) (now days fuel : Nat)
    (rands : Nat → Nat → Nat) (u c' : List Char) (custom : Option (List Char))
    (res : Except SubmitError (List Char)) (s1 : Store)
    (hu : codes_unique s) :
    (create_short_url_entry s now days fuel rands u custom = some (res, s1) →
      codes_unique s1) ∧
    codes_unique (redirect_url s now c').2 ∧
    codes_unique (cleanup_expired_urls s now).2 := by
  refine ⟨?_, ?_, ?_⟩
  · intro hcr
    cases res with
    | error e => rw [create_error_state _ _ _ _ _ _ _ _ _ hcr]; exact hu
    | ok c =>
      obtain ⟨hfresh, hs1⟩ := create_success_shape _ _ _ _ _ _ _ _ _ hcr
      have hnotin : c ∉ codes s := by
        intro hmem
        simp only [codes, List.mem_map] at hmem
        obtain ⟨r, hr, hrc⟩ := hmem
        exact ((find_by_code_eq_none _ _).mp hfresh r hr) hrc
      rw [hs1]
      simp only [codes_unique, codes, List.map_append, List.map_cons,
        List.map_nil, List.nodup_append] at hu hnotin ⊢
      exact ⟨hu, List.nodup_singleton c, by simpa using hnotin⟩
  · cases hf : find_by_code s.records c' with
    | none => simpa [redirect_url, hf] using hu
    | some r =>
      cases he : expired_at now r with
      | true =>
        simp only [redirect_url, hf, he, if_true]
        simp only [codes_unique, codes] at hu ⊢
        exact hu.sublist (List.Sublist.map _ (List.filter_sublist _))
      | false =>
        simp only [redirect_url, hf, he, Bool.false_eq_true, if_false]
        simp only [codes_unique, codes] at hu ⊢
        rw [codes_bump]
        · exact hu
        · intro x
          cases hx : x.id == r.id <;> simp [hx]
  · simp only [codes_unique, codes, cleanup_expired_urls] at hu ⊢
    exact hu.sublist (List.Sublist.map _ (List.filter_sublist _))

/-- Row created by the C2 witness submission. -/
def w2rec : ShortURL :=
  { id := 1, original_url := String.toList "https://example.com/a",
    short_code := String.toList "my-code", created_at := 0,
    expires_at := some 2592000, visit_count := 0 }

/-- Store after the C2 witness submission. -/
def w2s1 : Store := { records := [w2rec], nextId := 2 }

/-- Witness for C2 at a concrete submission with a custom code on the
empty store. -/
theorem C2_uniqueness_invariant_witness :
    (create_short_url_entry { records := [], nextId := 1 } 0 30 1 (fun _ _ => 0)
        (String.toList "https://example.com/a") (some (String.toList "my-code")) =
      some (Except.ok (String.toList "my-code"), w2s1) →
      codes_unique w2s1) ∧
    codes_unique (redirect_url { records := [], nextId := 1 } 0
      (String.toList "my-code")).2 ∧
    codes_unique (cleanup_expired_urls { records := [], nextId := 1 } 0).2 :=
  C2_uniqueness_invariant { records := [], nextId := 1 } 0 30 1 (fun _ _ => 0)
    (String.toList "https://example.com/a") (String.toList "my-code")
    (some (String.toList "my-code"))
    (Except.ok (String.toList "my-code")) w2s1
    (by simp [codes_unique, codes])

/-- C3: when a stored record's expires_at lies in the past, the first
resolution of its code observes Expired and deletes the record, and any
later resolution of that code observes NotFound. -/
theorem C3_expire_on_read (s : Store) (now now2 : Nat) (c : List Char)
    (r : ShortURL) (e : Nat)
    (hu : codes_unique s) (hf : find_by_code s.records c = some r)
    (he : r.expires_at = some e) (hlt : e < now) :
    (redirect_url s now c).1 = ResolveResult.Expired ∧
    find_by_code (redirect_url s now c).2.records c = none ∧
    (redirect_url (redirect_url s now c).2 now2 c).1 = ResolveResult.NotFound := by
  have hexp : expired_at now r = true := by simp [expired_at, he, hlt]
  have hred : redirect_url s now c =
      (ResolveResult.Expired,
       { s with records := s.records.filter (fun x => x.id != r.id) }) := by
    simp [redirect_url, hf, hexp]
  obtain ⟨hrmem, hrc⟩ := find_by_code_mem _ _ _ hf
  simp only [codes_unique, codes] at hu
  have hnone : find_by_code (s.records.filter (fun x => x.id != r.id)) c = none := by
    rw [find_by_code_eq_none]
    intro x hx hxc
    have hx' := List.mem_filter.mp hx
    have hxr : x = r :=
      List.inj_on_of_nodup_map hu hx'.1 hrmem (by rw [hxc, hrc])
    subst hxr
    simp at hx'
  refine ⟨by rw [hred], by rw [hred]; exact hnone, ?_⟩
  rw [hred]
  simp [redirect_url, hnone]

/-- Expired row of the C3 witness. -/
def w3rec : ShortURL :=
  { id := 1, original_url := String.toList "https://example.com/old",
    short_code := String.toList "abc", created_at := 0,
    expires_at := some 5, visit_count := 0 }

/-- Store of the C3 witness. -/
def w3s : Store := { records := [w3rec], nextId := 2 }

/-- Witness for C3 at a concrete expired record. -/
theorem C3_expire_on_read_witness :
    (redirect_url w3s 10 (String.toList "abc")).1 = ResolveResult.Expired ∧
    find_by_code (redirect_url w3s 10 (String.toList "abc")).2.records
      (String.toList "abc") = none ∧
    (redirect_url (redirect_url w3s 10 (String.toList "abc")).2 11
      (String.toList "abc")).1 = ResolveResult.NotFound :=
  C3_expire_on_read w3s 10 11 (String.toList "abc") w3rec 5
    (by simp [codes_unique, codes, w3s]) (by decide) rfl (by decide)

/-- C4: every error outcome of the submission endpoint (InvalidURL,
CodeInUse, InvalidCode) leaves the record store exactly as it was. -/
theorem C4_no_write_on_error (urlValid : List Char → Bool) (s : Store)
    (now days fuel : Nat) (rands : Nat → Nat → Nat) (u : List Char)
    (custom : Option (List Char)) (err : SubmitError) (s1 : Store)
    (h : api_create_short_url urlValid s now days fuel rands u custom =
      some (Except.error err, s1)) :
    s1 = s := by
  cases hv : urlValid u with
  | true =>
    simp only [api_create_short_url, validate_url, hv, if_true] at h
    exact create_error_state _ _ _ _ _ _ _ _ _ h
  | false =>
    simp only [api_create_short_url, validate_url, hv, Bool.false_eq_true,
      if_false] at h
    exact ((Prod.mk.injEq _ _ _ _).mp (Option.some.inj h)).2.symm

/-- Witness for C4 at a concrete rejected URL on the empty store. -/
theorem C4_no_write_on_error_witness :
    ({ records := [], nextId := 1 } : Store) = { records := [], nextId := 1 } :=
  C4_no_write_on_error (fun _ => false) { records := [], nextId := 1 } 0 30 1
    (fun _ _ => 0) (String.toList "notaurl") none SubmitError.InvalidURL
    { records := [], nextId := 1 } (by decide)

/-- Helper: a record cannot be both past-expired and future-dated. -/
theorem not_expired_and_future (now : Nat) (r : ShortURL) :
    ¬(expired_at now r = true ∧ future_at now r = true) := by
  rintro ⟨h1, h2⟩
  cases he : r.expires_at with
  | none => simp [expired_at, he] at h1
  | some e =>
    simp only [expired_at, he, decide_eq_true_eq] at h1
    simp only [future_at, he, decide_eq_true_eq] at h2
    omega

/-- C5: on a store of N past-expired and M future-dated records, the sweep
reports N removals and the surviving rows are exactly the M future ones,
unchanged and in order. -/
theorem C5_sweep (s : Store) (now N M : Nat)
    (hall : ∀ r ∈ s.records, expired_at now r = true ∨ future_at now r = true)
    (hN : (s.records.filter (expired_at now)).length = N)
    (hM : (s.records.filter (future_at now)).length = M) :
    (cleanup_expired_urls s now).1 = N ∧
    (cleanup_expired_urls s now).2.records = s.records.filter (future_at now) ∧
    (cleanup_expired_urls s now).2.records.length = M := by
  have hfc : s.records.filter (fun r => !expired_at now r) =
      s.records.filter (future_at now) := by
    apply List.filter_congr
    intro x hx
    rcases hall x hx with h1 | h1
    · cases h2 : future_at now x with
      | true => exact absurd ⟨h1, h2⟩ (not_expired_and_future now x)
      | false => rw [h1]; rfl
    · cases h2 : expired_at now x with
      | true => exact absurd ⟨h2, h1⟩ (not_expired_and_future now x)
      | false => rw [h1]; rfl
  refine ⟨by simpa [cleanup_expired_urls] using hN, ?_, ?_⟩
  · simpa [cleanup_expired_urls] using hfc
  · simp only [cleanup_expired_urls, hfc]
    exact hM

/-- Past-expired row of the C5 witness. -/
def w5a : ShortURL :=
  { id := 1, original_url := String.toList "https://a.example",
    short_code := String.toList "aa", created_at := 0,
    expires_at := some 5, visit_count := 0 }

/-- Future-dated row of the C5 witness. -/
def w5b : ShortURL :=
  { id := 2, original_url := String.toList "https://b.example",
    short_code := String.toList "bb", created_at := 0,
    expires_at := some 100, visit_count := 3 }

/-- Store of the C5 witness: one expired row, one live row. -/
def w5s : Store := { records := [w5a, w5b], nextId := 3 }

/-- Witness for C5 at the two-row store swept at time 10. -/
theorem C5_sweep_witness :
    (cleanup_expired_urls w5s 10).1 = 1 ∧
    (cleanup_expired_urls w5s 10).2.records = w5s.records.filter (future_at 10) ∧
    (cleanup_expired_urls w5s 10).2.records.length = 1 :=
  C5_sweep w5s 10 1 1 (by decide) (by decide) (by decide)

/-- C6: a submission without a custom code returns a code of exactly 6
characters, each drawn from the 62-character alphabet of 26 lowercase
letters, 26 uppercase letters, and 10 digits. -/
theorem C6_generated_code_shape (urlValid : List Char → Bool) (s : Store)
    (now days fuel : Nat) (rands : Nat → Nat → Nat) (u c : List Char) (s1 : Store)
    (hv : urlValid u = true)
    (h : api_create_short_url urlValid s now days fuel rands u none =
      some (Except.ok c, s1)) :
    c.length = 6 ∧ (∀ ch ∈ c, ch ∈ chars) ∧ chars.length = 62 ∧
    (chars.filter Char.isLower).length = 26 ∧
    (chars.filter Char.isUpper).length = 26 ∧
    (chars.filter Char.isDigit).length = 10 ∧ chars.Nodup := by
  simp only [api_create_short_url, validate_url, hv, if_true] at h
  obtain ⟨j, hj⟩ := create_generated_code _ _ _ _ _ _ _ _ h
  subst hj
  exact ⟨generate_short_code_length _ _,
    fun ch hch => generate_short_code_mem _ _ _ hch,
    by decide, by decide, by decide, by decide, by decide⟩

/-- Store after the C6 witness submission. -/
def w6s1 : Store :=
  { records := [{ id := 1, original_url := String.toList "https://example.com/x",
                  short_code := String.toList "aaaaaa", created_at := 0,
                  expires_at := some 2592000, visit_count := 0 }],
    nextId := 2 }

/-- Witness for C6 at a concrete submission on the empty store. -/
theorem C6_generated_code_shape_witness :
    (String.toList "aaaaaa").length = 6 ∧
    (∀ ch ∈ String.toList "aaaaaa", ch ∈ chars) ∧ chars.length = 62 ∧
    (chars.filter Char.isLower).length = 26 ∧
    (chars.filter Char.isUpper).length = 26 ∧
    (chars.filter Char.isDigit).length = 10 ∧ chars.Nodup :=
  C6_generated_code_shape (fun _ => true) { records := [], nextId := 1 } 0 30 1
    (fun _ _ => 0) (String.toList "https://example.com/x")
    (String.toList "aaaaaa") w6s1 rfl (by decide)

/-- Seventeen-character custom code used against C7. -/
def c7code : List Char := List.replicate 17 'a'

/-- Store after the C7 counterexample submission. -/
def c7s1 : Store :=
  { records := [{ id := 1, original_url := String.toList "https://example.com/x",
                  short_code := c7code, created_at := 0,
                  expires_at := some 2592000, visit_count := 0 }],
    nextId := 2 }

/-- Counterexample to C7: from the empty store, submitting a 17-character
slug as custom code succeeds (neither the application nor SQLite checks the
length), persisting a record whose short_code exceeds 16 characters. -/
theorem C7_counterexample :
    api_create_short_url (fun _ => true) { records := [], nextId := 1 } 0 30 1
      (fun _ _ => 0) (String.toList "https://example.com/x") (some c7code) =
      some (Except.ok c7code, c7s1) ∧
    c7s1.records.map (fun r => r.short_code.length) = [17] ∧
    ¬(17 ≤ 16) := by decide

/-- C7 amended: generated short codes always have 6 ≤ 16 characters, so a
submission without a custom code keeps every stored code within 16
characters; only custom codes can exceed the bound. -/
theorem C7_generated_length (urlValid : List Char → Bool) (s : Store)
    (now days fuel : Nat) (rands : Nat → Nat → Nat) (u c : List Char) (s1 : Store)
    (hs : ∀ r ∈ s.records, r.short_code.length ≤ 16)
    (h : api_create_short_url urlValid s now days fuel rands u none =
      some (Except.ok c, s1)) :
    c.length ≤ 16 ∧ ∀ r ∈ s1.records, r.short_code.length ≤ 16 := by
  cases hv : urlValid u with
  | false => simp [api_create_short_url, validate_url, hv] at h
  | true =>
    simp only [api_create_short_url, validate_url, hv, if_true] at h
    obtain ⟨j, hj⟩ := create_generated_code _ _ _ _ _ _ _ _ h
    obtain ⟨-, hs1⟩ := create_success_shape _ _ _ _ _ _ _ _ _ h
    have hc6 : c.length = 6 := by rw [hj]; exact generate_short_code_length _ _
    refine ⟨by omega, ?_⟩
    intro r hr
    rw [hs1] at hr
    simp only [List.mem_append, List.mem_singleton] at hr
    rcases hr with hr | hr
    · exact hs r hr
    · rw [hr]
      simpa using by omega

/-- Store after the C7 witness submission. -/
def w7s1 : Store :=
  { records := [{ id := 1, original_url := String.toList "https://example.com/y",
                  short_code := String.toList "aaaaaa", created_at := 0,
                  expires_at := some 2592000, visit_count := 0 }],
    nextId := 2 }

/-- Witness for the amended C7 at a concrete generated-code submission. -/
theorem C7_generated_length_witness :
    (String.toList "aaaaaa").length ≤ 16 ∧
    ∀ r ∈ w7s1.records, r.short_code.length ≤ 16 :=
  C7_generated_length (fun _ => true) { records := [], nextId := 1 } 0 30 1
    (fun _ _ => 0) (String.toList "https://example.com/y")
    (String.toList "aaaaaa") w7s1 (by simp) (by decide)

/-- C8: at any state whose stored codes all pass the slug check (true of
every reachable state), submitting a custom code containing a character
outside letters, digits, hyphen, underscore fails with InvalidCode and
leaves the store unchanged. -/
theorem C8_invalid_custom_code (s : Store) (now days fuel : Nat)
    (rands : Nat → Nat → Nat) (u c : List Char) (ch : Char)
    (hs : ∀ r ∈ s.records, slug r.short_code = true)
    (hch : ch ∈ c) (hbad : slugChar ch = false) :
    create_short_url_entry s now days fuel rands u (some c) =
      some (Except.error SubmitError.InvalidCode, s) := by
  have hallf : c.all slugChar = false := by
    rw [List.all_eq_false]
    exact ⟨ch, hch, by simp [hbad]⟩
  have hslug : slug c = false := by simp [slug, hallf]
  have hfind : find_by_code s.records c = none := by
    rw [find_by_code_eq_none]
    intro r hr hrc
    have hsr := hs r hr
    rw [hrc, hslug] at hsr
    exact Bool.false_ne_true hsr
  have hne : truthy (some c) = true := by
    cases c with
    | nil => cases hch
    | cons a t => rfl
  simp [create_short_url_entry, hne, hfind, hslug]

/-- Witness for C8: the custom code a b/c is rejected as InvalidCode. -/
theorem C8_invalid_custom_code_witness :
    create_short_url_entry { records := [], nextId := 1 } 0 30 1 (fun _ _ => 0)
      (String.toList "https://example.com/z") (some (String.toList "a b/c")) =
      some (Except.error SubmitError.InvalidCode, { records := [], nextId := 1 }) :=
  C8_invalid_custom_code { records := [], nextId := 1 } 0 30 1 (fun _ _ => 0)
    (String.toList "https://example.com/z") (String.toList "a b/c") ' '
    (by simp) (by decide) (by decide)

/-- Helper: every alphabet character passes the slug check, so generated
codes are slugs. -/
theorem generated_code_is_slug (rand : Nat → Nat) :
    slug (generate_short_code rand 6) = true := by
  have hmem : ∀ ch ∈ generate_short_code rand 6, slugChar ch = true := by
    intro ch hch
    have h1 := generate_short_code_mem rand 6 ch hch
    have hall : ∀ ch2 ∈ chars, slugChar ch2 = true := by decide
    exact hall ch h1
  have hne : (generate_short_code rand 6).isEmpty = false := by
    have := generate_short_code_length rand 6
    cases hg : generate_short_code rand 6 with
    | nil => rw [hg] at this; simp at this
    | cons a t => rfl
  simp only [slug, hne, Bool.not_false, Bool.true_and]
  rw [List.all_eq_true]
  intro ch hch
  exact hmem ch hch

/-- Helper: the hypothesis of the C8 statement holds in every reachable
state: submissions only ever store codes that pass the slug check. -/
theorem slug_invariant_preserved (s : Store) (now days fuel : Nat)
    (rands : Nat → Nat → Nat) (u : List Char) (custom : Option (List Char))
    (res : Except SubmitError (List Char)) (s1 : Store)
    (hs : ∀ r ∈ s.records, slug r.short_code = true)
    (h : create_short_url_entry s now days fuel rands u custom = some (res, s1)) :
    ∀ r ∈ s1.records, slug r.short_code = true := by
  cases res with
  | error e =>
    rw [create_error_state _ _ _ _ _ _ _ _ _ h]
    exact hs
  | ok c =>
    obtain ⟨-, hs1⟩ := create_success_shape _ _ _ _ _ _ _ _ _ h
    have hcslug : slug c = true := by
      cases hb : truthy custom with
      | false =>
        cases custom with
        | none =>
          obtain ⟨j, hj⟩ := create_generated_code _ _ _ _ _ _ _ _ h
          rw [hj]
          exact generated_code_is_slug _
        | some c0 =>
          have hc0 : c0 = [] := by
            cases c0 with
            | nil => rfl
            | cons a t => simp [truthy] at hb
          subst hc0
          obtain ⟨j, hj⟩ := create_generated_code _ _ _ _ _ _ _ _
            (by simpa using h)
          rw [hj]
          exact generated_code_is_slug _
      | true =>
        cases hfs : find_by_code s.records (custom.getD []) with
        | some r => simp [create_short_url_entry, hb, hfs] at h
        | none =>
          cases hsl : slug (custom.getD []) with
          | false => simp [create_short_url_entry, hb, hfs, hsl] at h
          | true =>
            simp only [create_short_url_entry, hb, hfs, hsl, if_true,
              Bool.not_true, Option.isSome_none, Bool.false_eq_true, if_false,
              Option.some.injEq, Prod.mk.injEq, Except.ok.injEq] at h
            rw [← h.1]
            exact hsl
    intro r hr
    rw [hs1] at hr
    simp only [List.mem_append, List.mem_singleton] at hr
    rcases hr with hr | hr
    · exact hs r hr
    · rw [hr]
      exact hcslug

/-- C9: every successful submission appends one record whose expires_at is
its created_at plus the configured retention window of days (86400 seconds
each; the configured default is 30). -/
theorem C9_expiry_window (s : Store) (now days fuel : Nat)
    (rands : Nat → Nat → Nat) (u : List Char) (custom : Option (List Char))
    (c : List Char) (s1 : Store)
    (h : create_short_url_entry s now days fuel rands u custom =
      some (Except.ok c, s1)) :
    ∃ n : ShortURL, s1.records = s.records ++ [n] ∧ n.created_at = now ∧
      n.expires_at = some (n.created_at + days * 86400) := by
  obtain ⟨-, hs1⟩ := create_success_shape _ _ _ _ _ _ _ _ _ h
  exact ⟨_, by rw [hs1], rfl, rfl⟩

/-- Witness for C9 at a concrete submission with the default 30-day
retention window. -/
theorem C9_expiry_window_witness :
    ∃ n : ShortURL,
      w2s1.records = ({ records := [], nextId := 1 } : Store).records ++ [n] ∧
      n.created_at = 0 ∧ n.expires_at = some (n.created_at + 30 * 86400) :=
  C9_expiry_window { records := [], nextId := 1 } 0 30 1 (fun _ _ => 0)
    (String.toList "https://example.com/a") (some (String.toList "my-code"))
    (String.toList "my-code") w2s1 (by decide)

/-- C10: an empty-string custom code is falsy, so submission behaves
exactly as if no custom code was supplied, at the entry helper and at the
API endpoint alike. -/
theorem C10_empty_custom_code (urlValid : List Char → Bool) (s : Store)
    (now days fuel : Nat) (rands : Nat → Nat → Nat) (u : List Char) :
    create_short_url_entry s now days fuel rands u (some []) =
      create_short_url_entry s now days fuel rands u none ∧
    api_create_short_url urlValid s now days fuel rands u (some []) =
      api_create_short_url urlValid s now days fuel rands u none := by
  exact ⟨rfl, rfl⟩

example :
    create_short_url_entry { records := [], nextId := 1 } 0 30 1 (fun _ _ => 0)
      (String.toList "https://example.com/page") none =
    some (Except.ok (String.toList "aaaaaa"),
      { records := [{ id := 1, original_url := String.toList "https://example.com/page",
                      short_code := String.toList "aaaaaa", created_at := 0,
                      expires_at := some 2592000, visit_count := 0 }], nextId := 2 }) := by
  decide
